import Mathlib

/-!
Verification development for the simple-rag backend.

The definitions below are a shallow embedding of the Python source files
`backend/app/api/models.py`, `backend/app/api/routers/vercel_response.py`
and `backend/app/api/chat.py`.  Pure Python functions become Lean
functions; Python exceptions become an explicit `Except PyErr` result;
Python `None` becomes `Option`.  Each definition carries a comment
pointing at the source lines it embeds.
-/

set_option autoImplicit false

namespace SimpleRag

/-- Python exception classes that the embedded code can raise.
`valueErrorEmptyChat` models `ValueError("There is not any message in the chat")`
(the spec's `EmptyConversation`); `attributeError` models the `AttributeError`
raised by `self.data.files` when `data` is a plain list; `indexError` models
the `IndexError` raised by `messages[-1]` on an empty list. -/
inductive PyErr where
  | valueErrorEmptyChat
  | attributeError
  | indexError
  deriving DecidableEq, Repr

/-- `MessageRole` from llama_index, as used by `models.py` (only `USER`
is ever compared against). -/
inductive MessageRole where
  | user
  | assistant
  | system
  | tool
  deriving DecidableEq, Repr

/-- The `value` field of `FileContent`: Python type `str | List[str]`. -/
inductive FileValue where
  | str (s : String)
  | list (l : List String)
  deriving DecidableEq, Repr

/-- `FileContent` model: `type: Literal["text", "ref"]`, `value: str | List[str]`.
The `Literal` constraint is enforced by pydantic validation, not by the class
itself, so `type` is an arbitrary string here. -/
structure FileContent where
  type : String
  value : FileValue
  deriving DecidableEq, Repr

/-- `File` model from `models.py`. -/
structure File where
  id : String
  content : FileContent
  filename : String
  filesize : Nat
  filetype : String
  deriving DecidableEq, Repr

/-- `AnnotationFileData` model: `files: List[File]`. -/
structure AnnotFileData where
  files : List File
  deriving DecidableEq, Repr

/-- The `data` field of the annotation model: Python type
`AnnotationFileData | List[str]`. -/
inductive AnnotData where
  | fileData (d : AnnotFileData)
  | refs (l : List String)
  deriving DecidableEq, Repr

/-- True exactly when the `data` field holds `AnnotationFileData`
(so that the Python attribute access `self.data.files` succeeds). -/
def AnnotData.isFileData : AnnotData → Bool
  | .fileData _ => true
  | .refs _ => false

/-- The annotation model from `models.py`: `type: str`,
`data: AnnotationFileData | List[str]`. -/
structure Annot where
  type : String
  data : AnnotData
  deriving DecidableEq, Repr

/-- `Message` model: `role`, `content`, `annotations: List[Annotation] | None`. -/
structure Message where
  role : MessageRole
  content : String
  annotations : Option (List Annot)
  deriving DecidableEq, Repr

/-- `ChatData` model: `messages: List[Message]` (the opaque `data: Any`
field is not involved in any verified operation and is omitted). -/
structure ChatData where
  messages : List Message
  deriving DecidableEq, Repr

/-- How a Python f-string renders a `str | List[str]` value: a string is
inserted verbatim, a list is rendered via `repr`, i.e.
`['a', 'b']` (repr-escaping inside the ids is not modelled; no theorem
below exercises this branch on ids containing quotes). -/
def FileValue.fstr : FileValue → String
  | .str s => s
  | .list l => "[" ++ ", ".intercalate (l.map (fun x => "\x27" ++ x ++ "\x27")) ++ "]"

/-- `Annotation.to_content` from `models.py` lines 105-124.
For `type == "document_file"` it reads `self.data.files` — an
`AttributeError` when `data` is a plain list — keeps the files whose
`filetype == "csv"` and, when there is at least one, returns the header
line plus the newline-join of one fenced block per CSV file.  Every
other case returns `None` (other types additionally log a warning). -/
def Annot.to_content (a : Annot) : Except PyErr (Option String) :=
  if a.type = "document_file" then
    match a.data with
    | .refs _ => .error .attributeError
    | .fileData fd =>
      let csv_files := fd.files.filter (fun f => f.filetype = "csv")
      if csv_files.length > 0 then
        .ok (some ("Use data from following CSV raw content\n" ++
          "\n".intercalate (csv_files.map
            (fun f => "```csv\n" ++ f.content.value.fstr ++ "\n```"))))
      else .ok none
  else .ok none

/-- The list comprehension
`[annotation.to_content() for annotation in message.annotations]` followed by
`filter(None, ...)`: every element is evaluated left to right (the first
exception propagates) and the `None` results are dropped. -/
def annotContents : List Annot → Except PyErr (List String)
  | [] => .ok []
  | a :: rest => do
    let c ← a.to_content
    let cs ← annotContents rest
    match c with
    | none => .ok cs
    | some s => .ok (s :: cs)

/-- The `for message in reversed(self.messages)` loop of
`ChatData.get_last_message_content` (`models.py` lines 172-185), taking the
already-reversed message list.  Python's `filter(None, ...)` returns a lazy
filter object, which is always truthy, so the guard
`if not annotation_contents: continue` never fires: the loop always stops at
the first user message whose `annotations` field is not `None`, appending
`"\n" + "\n".join(contents)` even when the joined contents are empty. -/
def lastContentLoop (base : String) : List Message → Except PyErr String
  | [] => .ok base
  | m :: rest =>
    if m.role = .user ∧ m.annotations ≠ none then do
      let contents ← annotContents (m.annotations.getD [])
      .ok (base ++ "\n" ++ "\n".intercalate contents)
    else lastContentLoop base rest

/-- `ChatData.get_last_message_content` from `models.py` lines 166-186:
raises `ValueError` when `messages` is empty, otherwise starts from the last
message's content and runs the reverse scan. -/
def ChatData.get_last_message_content (cd : ChatData) : Except PyErr String :=
  match cd.messages.getLast? with
  | none => .error .valueErrorEmptyChat
  | some last => lastContentLoop last.content cd.messages.reverse

/-- `ChatData.is_last_message_from_user` from `models.py` lines 197-198:
`self.messages[-1].role == MessageRole.USER` with no emptiness guard, so on
an empty list the subscript raises `IndexError`. -/
def ChatData.is_last_message_from_user (cd : ChatData) : Except PyErr Bool :=
  match cd.messages.getLast? with
  | none => .error .indexError
  | some m => .ok (decide (m.role = .user))

/-- The part of the streaming `chat` handler (`chat.py` lines 38-59) that
decides whether the engine is reached: `get_last_message_content` runs
first, and only when it returns normally does the handler call
`get_chat_engine` / `astream_chat`.  The boolean records whether the engine
was invoked. -/
def chatInvokesEngine (cd : ChatData) : Bool :=
  match cd.get_last_message_content with
  | .error _ => false
  | .ok _ => true

/-- Python truthiness of an optional string (`None` and `""` are falsy). -/
def truthyOpt : Option String → Bool
  | none => false
  | some s => s ≠ ""

/-- Length of the longest common prefix of two lists of path components. -/
def commonPrefixLen : List String → List String → Nat
  | a :: as, b :: bs => if a = b then commonPrefixLen as bs + 1 else 0
  | _, _ => 0

/-- Lexical model of `os.path.relpath(path, start)` for POSIX paths (both
arguments taken as already absolute, which is how `models.py` uses it:
`file_path` comes from indexed metadata and `start` is
`os.path.abspath(DATA_DIR)`): split on `/`, drop empty and `.` components,
remove the common prefix, then go up with `..` and down into the rest. -/
def relpath (path start : String) : String :=
  let p := (path.splitOn "/").filter (fun s => s ≠ "" ∧ s ≠ ".")
  let s := (start.splitOn "/").filter (fun s => s ≠ "" ∧ s ≠ ".")
  let k := commonPrefixLen p s
  let parts := List.replicate (s.length - k) ".." ++ p.drop k
  if parts = [] then "." else "/".intercalate parts

/-- `SourceNodes.get_url_from_metadata` from `models.py` lines 238-266.
`url_pre` is `os.getenv("FILESERVER_URL_PREFIX")`, `data_dir` is
`os.path.abspath(DATA_DIR)` and `metadata` is the node's metadata dict,
modelled as a string-valued partial map (every field the function reads is
used as a string).  The control flow follows the source exactly: the outer
`if file_name and url_prefix` guard, then the `pipeline_id`, `private` and
`file_path` branches, each falling back to `metadata.get("URL")`. -/
def get_url_from_metadata (url_pre : Option String) (data_dir : String)
    (metadata : String → Option String) : Option String :=
  let file_name := metadata "file_name"
  if truthyOpt file_name ∧ truthyOpt url_pre then
    let fn := file_name.getD ""
    let up := url_pre.getD ""
    let pipeline_id := metadata "pipeline_id"
    if truthyOpt pipeline_id then
      some (up ++ "/output/llamacloud/" ++ pipeline_id.getD "" ++ "$" ++ fn)
    else if (metadata "private").getD "false" = "true" then
      some (up ++ "/output/uploaded/" ++ fn)
    else
      let file_path := metadata "file_path"
      if truthyOpt file_path ∧ data_dir ≠ "" then
        some (up ++ "/data/" ++ relpath (file_path.getD "") data_dir)
      else metadata "URL"
  else metadata "URL"

/-! ### JSON string framing (`vercel_response.py`) -/

/-- Lowercase hex digit for `n < 16`, as produced by Python's
`'\\u%04x' % n` formatting. -/
def hexDigit (n : Nat) : Char :=
  if n < 10 then Char.ofNat (48 + n) else Char.ofNat (87 + n)

/-- The four hex digits of `n < 0x10000`, most significant first. -/
def hex4 (n : Nat) : List Char :=
  [hexDigit (n / 4096 % 16), hexDigit (n / 256 % 16), hexDigit (n / 16 % 16), hexDigit (n % 16)]

/-- Value of one hex digit, either case, as accepted by `json.loads`. -/
def parseHexDigit (c : Char) : Option Nat :=
  if 48 ≤ c.toNat ∧ c.toNat ≤ 57 then some (c.toNat - 48)
  else if 97 ≤ c.toNat ∧ c.toNat ≤ 102 then some (c.toNat - 87)
  else if 65 ≤ c.toNat ∧ c.toNat ≤ 70 then some (c.toNat - 55)
  else none

/-- Value of a four-hex-digit escape body. -/
def parseHex4 (h1 h2 h3 h4 : Char) : Option Nat :=
  match parseHexDigit h1, parseHexDigit h2, parseHexDigit h3, parseHexDigit h4 with
  | some a, some b, some c, some d => some (a * 4096 + b * 256 + c * 16 + d)
  | _, _, _, _ => none

/-- How CPython's `json.dumps` (default `ensure_ascii=True`) encodes one
character of a string: the seven short escapes of `ESCAPE_DCT`, printable
ASCII (U+0020..U+007E) verbatim, every other BMP character as `\uXXXX`,
and astral characters as a UTF-16 surrogate pair of `\u` escapes. -/
def encodeChar (c : Char) : List Char :=
  if c = '"' then ['\\', '"']
  else if c = '\\' then ['\\', '\\']
  else if c = '\x08' then ['\\', 'b']
  else if c = '\x0c' then ['\\', 'f']
  else if c = '\n' then ['\\', 'n']
  else if c = '\x0d' then ['\\', 'r']
  else if c = '\t' then ['\\', 't']
  else if 32 ≤ c.toNat ∧ c.toNat ≤ 126 then [c]
  else if c.toNat < 65536 then '\\' :: 'u' :: hex4 c.toNat
  else
    '\\' :: 'u' :: hex4 (55296 + (c.toNat - 65536) / 1024) ++
      ('\\' :: 'u' :: hex4 (56320 + (c.toNat - 65536) % 1024))

/-- `json.dumps(token)` for a string `token`: the characters escaped as
above, wrapped in double quotes. -/
def jsonDumpsString (s : String) : String :=
  "\"" ++ String.mk (s.data.flatMap encodeChar) ++ "\""

mutual

/-- `json.loads` on the body of a string literal (everything after the
opening quote): stops at the closing quote, which must end the input
(`json.loads` rejects trailing data), accepts the standard escapes and
`\uXXXX` with UTF-16 surrogate pairs recombined, and rejects raw control
characters (strict mode).  Lean characters are unicode scalar values, so a
lone surrogate escape — which CPython would keep as a lone surrogate and
which `json.dumps` never produces — is rejected rather than represented. -/
def decodeStringBody : List Char → Option (List Char)
  | [] => none
  | c :: rest =>
    if c = '"' then (if rest = [] then some [] else none)
    else if c = '\\' then decodeEsc rest
    else if 32 ≤ c.toNat then (decodeStringBody rest).map (fun l => c :: l)
    else none

/-- The character after a backslash: one of the eight single-character
escapes, or `u` starting a four-hex-digit escape. -/
def decodeEsc : List Char → Option (List Char)
  | [] => none
  | e :: rest =>
    if e = '"' then (decodeStringBody rest).map (fun l => '"' :: l)
    else if e = '\\' then (decodeStringBody rest).map (fun l => '\\' :: l)
    else if e = '/' then (decodeStringBody rest).map (fun l => '/' :: l)
    else if e = 'b' then (decodeStringBody rest).map (fun l => '\x08' :: l)
    else if e = 'f' then (decodeStringBody rest).map (fun l => '\x0c' :: l)
    else if e = 'n' then (decodeStringBody rest).map (fun l => '\n' :: l)
    else if e = 'r' then (decodeStringBody rest).map (fun l => '\x0d' :: l)
    else if e = 't' then (decodeStringBody rest).map (fun l => '\t' :: l)
    else if e = 'u' then decodeU rest
    else none

/-- The four hex digits of a `\u` escape: a high surrogate starts a pair,
a lone low surrogate is rejected, anything else is the scalar value. -/
def decodeU : List Char → Option (List Char)
  | h1 :: h2 :: h3 :: h4 :: rest =>
    match parseHex4 h1 h2 h3 h4 with
    | none => none
    | some n =>
      if 55296 ≤ n ∧ n ≤ 56319 then decodeLow n rest
      else if 56320 ≤ n ∧ n ≤ 57343 then none
      else (decodeStringBody rest).map (fun l => Char.ofNat n :: l)
  | _ => none

/-- After a high surrogate `n`: expect `\u` with four hex digits holding a
low surrogate and recombine the scalar value. -/
def decodeLow (n : Nat) : List Char → Option (List Char)
  | b1 :: u1 :: g1 :: g2 :: g3 :: g4 :: rest =>
    if b1 = '\\' ∧ u1 = 'u' then
      match parseHex4 g1 g2 g3 g4 with
      | none => none
      | some m =>
        if 56320 ≤ m ∧ m ≤ 57343 then
          (decodeStringBody rest).map
            (fun l => Char.ofNat (65536 + (n - 55296) * 1024 + (m - 56320)) :: l)
        else none
    else none
  | _ => none

end

/-- `json.loads` on a complete JSON document that is a string literal. -/
def jsonLoadsString (s : String) : Option String :=
  match s.data with
  | '"' :: body => (decodeStringBody body).map String.mk
  | _ => none

/-- `VercelStreamResponse.convert_text` (`vercel_response.py` lines 18-22):
`TEXT_PREFIX` (`"0:"`), the token passed through `json.dumps`, a newline. -/
def convert_text (token : String) : String :=
  "0:" ++ jsonDumpsString token ++ "\n"

/-- `VercelStreamResponse.convert_data` (`vercel_response.py` lines 24-27):
`DATA_PREFIX` (`"8:"`), the payload's `json.dumps` output wrapped in a
one-element array, a newline.  The payload is passed in already serialized. -/
def convert_data (data_str : String) : String :=
  "8:[" ++ data_str ++ "]\n"

/-- `json.dumps({"type": "sources", "data": {"nodes": [...]}})` with the
nodes themselves passed in already serialized: CPython's default
separators put a space after every `:` and `,` at the object level. -/
def sourcesJson (nodes : List String) : String :=
  "\x7b\"type\": \"sources\", \"data\": \x7b\"nodes\": [" ++
    ", ".intercalate nodes ++ "]\x7d\x7d"

/-- The frames produced by `_chat_response_generator`
(`vercel_response.py` lines 44-60): one `Text` frame per engine token in
order, then the single sources `Data` frame.  `stream.merge` over this one
generator yields exactly these items in order. -/
def innerFrames (tokens : List String) (nodes : List String) : List String :=
  tokens.map convert_text ++ [convert_data (sourcesJson nodes)]

/-- The `async for output in streamer` loop of `content_generator`
(`vercel_response.py` lines 63-75): yield the item, then ask
`request.is_disconnected()` and break when it answers true.  `disc i` is
the answer to the i-th disconnect call. -/
def cgLoop (disc : Nat → Bool) : List String → Nat → List String
  | [], _ => []
  | f :: rest, i => f :: (if disc i then [] else cgLoop disc rest (i + 1))

/-- `VercelStreamResponse.content_generator` (`vercel_response.py` lines
37-75): on the first item the synthetic blank `Text("")` frame is emitted
before it (`is_stream_started` flag), every item is forwarded in order and
the disconnect check runs after each forwarded item. -/
def contentGenerator (items : List String) (disc : Nat → Bool) : List String :=
  match items with
  | [] => []
  | f :: rest => convert_text "" :: cgLoop disc (f :: rest) 0

/-- Modelled from the spec: a multiplexer that checks the connection
BEFORE forwarding each frame ("Before forwarding each frame, the
multiplexer checks whether the client connection has been closed; if so it
stops immediately without emitting remaining frames"), over the same frame
sequence (leading blank frame included). -/
def scbLoop (disc : Nat → Bool) : List String → Nat → List String
  | [], _ => []
  | f :: rest, i => if disc i then [] else f :: scbLoop disc rest (i + 1)

/-- Modelled from the spec: the whole check-before multiplexer. -/
def specCheckBeforeGenerator (items : List String) (disc : Nat → Bool) : List String :=
  match items with
  | [] => []
  | _ :: _ => scbLoop disc (convert_text "" :: items) 0

/-! ### Helper definitions for the context-assembler theorems -/

deriving instance DecidableEq for Except

/-- A `document_file` annotation whose `data` is a plain string list makes
`to_content` raise `AttributeError`; this predicate rules that out. -/
def annotOk (a : Annot) : Prop := a.type = "document_file" → a.data.isFileData = true

instance (a : Annot) : Decidable (annotOk a) := by unfold annotOk; infer_instance

/-- All annotations carried by the message are well formed. -/
def msgOk (m : Message) : Prop := ∀ a ∈ m.annotations.getD [], annotOk a

instance (m : Message) : Decidable (msgOk m) := by unfold msgOk; infer_instance

/-- All annotations of all messages of the request are well formed. -/
def ChatData.wellFormed (cd : ChatData) : Prop := ∀ m ∈ cd.messages, msgOk m

instance (cd : ChatData) : Decidable cd.wellFormed := by
  unfold ChatData.wellFormed; infer_instance

/-- Pure value of `Annotation.to_content` on a well-formed annotation. -/
def toContentPure (a : Annot) : Option String :=
  if a.type = "document_file" then
    match a.data with
    | .refs _ => none
    | .fileData fd =>
      let csv_files := fd.files.filter (fun f => f.filetype = "csv")
      if csv_files.length > 0 then
        some ("Use data from following CSV raw content\n" ++
          "\n".intercalate (csv_files.map
            (fun f => "```csv\n" ++ f.content.value.fstr ++ "\n```")))
      else none
  else none

/-- The scan predicate of `get_last_message_content`'s loop: a user message
whose `annotations` field is present. -/
def scanPred (m : Message) : Bool :=
  decide (m.role = .user) && decide (m.annotations ≠ none)

/-- The message the spec says the reverse scan stops at: the most recent
(user, annotated) message, if any. -/
def specFirstAnnotatedUser (l : List Message) : Option Message :=
  l.reverse.find? scanPred

/-- Content of the last message of the request (defaulting to `""` when
empty, a case no result below relies on). -/
def lastMessageContent (cd : ChatData) : String :=
  ((cd.messages.getLast?).map Message.content).getD ""

theorem to_content_ok (a : Annot) (h : annotOk a) :
    a.to_content = .ok (toContentPure a) := by
  unfold Annot.to_content toContentPure
  by_cases ht : a.type = "document_file"
  · simp only [ht, if_pos]
    cases hd : a.data with
    | refs l => exact absurd (h ht) (by simp [hd, AnnotData.isFileData])
    | fileData fd =>
      by_cases hl : (fd.files.filter (fun f => f.filetype = "csv")).length > 0 <;>
        simp [hl]
  · simp [ht]

theorem annotContents_ok (l : List Annot) (h : ∀ a ∈ l, annotOk a) :
    annotContents l = .ok (l.filterMap toContentPure) := by
  induction l with
  | nil => rfl
  | cons a rest ih =>
    simp only [annotContents, to_content_ok a (h a (by simp)),
      ih (fun x hx => h x (by simp [hx])), List.filterMap_cons]
    cases toContentPure a <;> rfl

theorem lastContentLoop_spec (base : String) (l : List Message)
    (h : ∀ m ∈ l, msgOk m) :
    lastContentLoop base l = .ok (match l.find? scanPred with
      | none => base
      | some m => base ++ "\n" ++
          "\n".intercalate ((m.annotations.getD []).filterMap toContentPure)) := by
  induction l with
  | nil => rfl
  | cons m rest ih =>
    by_cases hm : m.role = .user ∧ m.annotations ≠ none
    · have hp : scanPred m = true := by
        simp [scanPred, hm.1, hm.2]
      rw [List.find?_cons_of_pos _ hp]
      simp only [lastContentLoop, if_pos hm,
        annotContents_ok _ (h m (by simp))]
      rfl
    · have hp : ¬scanPred m = true := by
        simp only [scanPred, Bool.and_eq_true, decide_eq_true_eq]
        exact fun hc => hm ⟨hc.1, hc.2⟩
      rw [List.find?_cons_of_neg _ hp]
      simp only [lastContentLoop, if_neg hm]
      exact ih (fun x hx => h x (by simp [hx]))

/-- The only exception `to_content` can raise is the `AttributeError`. -/
theorem to_content_error (a : Annot) (e : PyErr)
    (h : a.to_content = .error e) : e = .attributeError := by
  unfold Annot.to_content at h
  split at h
  · split at h
    · injection h with h1
      exact h1.symm
    · dsimp only at h
      split at h
      · exact Except.noConfusion h
      · exact Except.noConfusion h
  · exact Except.noConfusion h

/-- The only exception the annotation-content comprehension can raise is
the `AttributeError`. -/
theorem annotContents_error (l : List Annot) (e : PyErr)
    (h : annotContents l = .error e) : e = .attributeError := by
  induction l with
  | nil => exact Except.noConfusion h
  | cons a rest ih =>
    rw [annotContents] at h
    cases hta : a.to_content with
    | error e2 =>
      rw [hta] at h
      have h' : (Except.error e2 : Except PyErr (List String)) = .error e := h
      injection h' with h''
      exact h'' ▸ to_content_error a e2 hta
    | ok c =>
      rw [hta] at h
      cases hc2 : annotContents rest with
      | error e3 =>
        rw [hc2] at h
        have h' : (Except.error e3 : Except PyErr (List String)) = .error e := h
        injection h' with h''
        exact ih (h'' ▸ hc2)
      | ok cs =>
        rw [hc2] at h
        cases c <;> exact Except.noConfusion h

/-- Errors out of the scan loop are always the `AttributeError` of
`to_content`, never the empty-conversation `ValueError`. -/
theorem lastContentLoop_error (base : String) (l : List Message) (e : PyErr)
    (h : lastContentLoop base l = .error e) : e = .attributeError := by
  induction l with
  | nil => exact Except.noConfusion h
  | cons m rest ih =>
    by_cases hm : m.role = .user ∧ m.annotations ≠ none
    · simp only [lastContentLoop, if_pos hm] at h
      cases hc : annotContents (m.annotations.getD []) with
      | error e' =>
        rw [hc] at h
        have h' : (Except.error e' : Except PyErr String) = .error e := h
        injection h' with h''
        exact h'' ▸ annotContents_error _ e' hc
      | ok cs =>
        rw [hc] at h
        exact Except.noConfusion h
    · simp only [lastContentLoop, if_neg hm] at h
      exact ih h

/-- Messages that are not annotated user messages are skipped by the scan. -/
theorem lastContentLoop_append_skip (base : String) (l l' : List Message)
    (h : ∀ m ∈ l, ¬(m.role = .user ∧ m.annotations ≠ none)) :
    lastContentLoop base (l ++ l') = lastContentLoop base l' := by
  induction l with
  | nil => rfl
  | cons m rest ih =>
    simp only [List.cons_append, lastContentLoop, if_neg (h m (by simp))]
    exact ih (fun x hx => h x (by simp [hx]))

/-- A `document_file` annotation none of whose files has `filetype == "csv"`
yields no content. -/
theorem to_content_no_csv (a : Annot) (fd : AnnotFileData)
    (ht : a.type = "document_file") (hd : a.data = .fileData fd)
    (hf : ∀ f ∈ fd.files, f.filetype ≠ "csv") :
    a.to_content = .ok none := by
  have hfilter : fd.files.filter (fun f => decide (f.filetype = "csv")) = [] :=
    List.filter_eq_nil_iff.mpr (fun f hfm => by simp [hf f hfm])
  unfold Annot.to_content
  rw [if_pos ht, hd]
  dsimp only
  rw [hfilter]
  rfl

/-- When every annotation yields no content the comprehension collects
nothing. -/
theorem annotContents_none (l : List Annot)
    (h : ∀ a ∈ l, a.to_content = .ok none) : annotContents l = .ok [] := by
  induction l with
  | nil => rfl
  | cons a rest ih =>
    rw [annotContents, h a (by simp), ih (fun x hx => h x (by simp [hx]))]
    rfl

/-- The reverse scan characterized: on a non-empty, well-formed request
the result is the last message's content, extended at the most recent
annotated user message (when one exists) by a newline and the join of its
annotation contents. -/
theorem get_last_message_content_scan (cd : ChatData) (h : cd.messages ≠ [])
    (hwf : cd.wellFormed) :
    cd.get_last_message_content = .ok (match specFirstAnnotatedUser cd.messages with
      | none => lastMessageContent cd
      | some m => lastMessageContent cd ++ "\n" ++
          "\n".intercalate ((m.annotations.getD []).filterMap toContentPure)) := by
  cases hl : cd.messages.getLast? with
  | none => exact absurd (List.getLast?_eq_none_iff.mp hl) h
  | some last =>
    unfold ChatData.get_last_message_content
    rw [hl]
    have hbase : lastMessageContent cd = last.content := by
      unfold lastMessageContent; rw [hl]; rfl
    show lastContentLoop last.content cd.messages.reverse = _
    rw [lastContentLoop_spec last.content cd.messages.reverse
      (fun m hm => hwf m (List.mem_reverse.mp hm))]
    unfold specFirstAnnotatedUser
    rw [hbase]

/-- C4 (amended): for every non-empty conversation whose `document_file`
annotations all carry file data, `get_last_message_content` scans the
messages in reverse and, at the first (most recent) user message whose
`annotations` field is present, stops and returns the last message's
content, a newline, and the newline-join of the non-`None` annotation
contents of that message (possibly empty), even when every annotation
yields no content; earlier annotated user messages are never consulted,
and with no annotated user message the last message's content is returned
unmodified. -/
theorem claim_C4_scan_shape (cd : ChatData) (h : cd.messages ≠ [])
    (hwf : cd.wellFormed) :
    cd.get_last_message_content = .ok (match specFirstAnnotatedUser cd.messages with
      | none => lastMessageContent cd
      | some m => lastMessageContent cd ++ "\n" ++
          "\n".intercalate ((m.annotations.getD []).filterMap toContentPure)) :=
  get_last_message_content_scan cd h hwf

/-- Witness for C4 at a concrete conversation: a single user message with
one `document_file` annotation holding no CSV file, so the scan stops there
and appends a newline and an empty join. -/
theorem claim_C4_scan_shape_witness :
    (ChatData.mk [⟨.user, "Hi",
        some [⟨"document_file", .fileData ⟨[⟨"1", ⟨"ref", .list ["d1"]⟩, "x.pdf", 10, "pdf"⟩]⟩⟩]⟩]).get_last_message_content
      = .ok "Hi\n" := by
  have h := claim_C4_scan_shape
    (ChatData.mk [⟨.user, "Hi",
        some [⟨"document_file", .fileData ⟨[⟨"1", ⟨"ref", .list ["d1"]⟩, "x.pdf", 10, "pdf"⟩]⟩⟩]⟩])
    (by simp) (by decide)
  simpa using h

/-- Counterexample to C4 as stated: a non-empty conversation on which
`get_last_message_content` does not return at all — the single user
message carries a `document_file` annotation whose `data` is a plain
string list, so `to_content`'s attribute access `self.data.files` raises
`AttributeError` instead of producing the described string. -/
theorem claim_C4_counterexample :
    (ChatData.mk [⟨.user, "Q", some [⟨"document_file", .refs ["r1"]⟩]⟩]).get_last_message_content
      = .error .attributeError := by decide

/-- C3 (amended): when the most recent user message carries only
`document_file` annotations all of whose files have `ref`-typed content
and none of whose files has `filetype == "csv"`, the result is the last
message's content with one extra newline appended (the scan stops at that
message and appends the empty join), not the content unchanged. -/
theorem claim_C3_ref_only (pre post : List Message) (u : Message)
    (anns : List Annot) (cd : ChatData)
    (hmsgs : cd.messages = pre ++ u :: post)
    (hrole : u.role = .user)
    (hanns : u.annotations = some anns)
    (hdoc : ∀ a ∈ anns, a.type = "document_file" ∧
        ∃ fd, a.data = .fileData fd ∧
          ∀ f ∈ fd.files, f.content.type = "ref" ∧ f.filetype ≠ "csv")
    (hpost : ∀ m ∈ post, m.role ≠ .user) :
    cd.get_last_message_content = .ok (lastMessageContent cd ++ "\n") := by
  have hne : cd.messages ≠ [] := by simp [hmsgs]
  cases hl : cd.messages.getLast? with
  | none => exact absurd (List.getLast?_eq_none_iff.mp hl) hne
  | some last =>
    unfold ChatData.get_last_message_content
    rw [hl]
    have hbase : lastMessageContent cd = last.content := by
      unfold lastMessageContent; rw [hl]; rfl
    have hrev : cd.messages.reverse = post.reverse ++ u :: pre.reverse := by
      rw [hmsgs]
      simp [List.reverse_append]
    rw [hrev]
    show lastContentLoop last.content (post.reverse ++ u :: pre.reverse) = _
    rw [lastContentLoop_append_skip _ _ _
      (fun m hm => fun hc => hpost m (List.mem_reverse.mp hm) hc.1)]
    have hu : u.role = .user ∧ u.annotations ≠ none := ⟨hrole, by simp [hanns]⟩
    simp only [lastContentLoop]
    rw [if_pos hu]
    simp only [hanns, Option.getD_some]
    rw [annotContents_none anns (fun a ha => by
      obtain ⟨ht, fd, hd, hf⟩ := hdoc a ha
      exact to_content_no_csv a fd ht hd (fun f hfm => (hf f hfm).2))]
    rw [hbase]
    show Except.ok (last.content ++ "\n" ++ "\n".intercalate []) = _
    have hi : "\n".intercalate ([] : List String) = "" := rfl
    rw [hi, String.append_empty]

/-- Witness for C3 at a concrete conversation: one user message whose
single `document_file` annotation holds one `ref`-typed non-CSV file; the
content comes back with exactly one newline appended. -/
theorem claim_C3_ref_only_witness :
    (ChatData.mk [⟨.user, "What is RAG?",
        some [⟨"document_file", .fileData ⟨[⟨"7", ⟨"ref", .list ["doc9"]⟩, "r.pdf", 42, "pdf"⟩]⟩⟩]⟩]).get_last_message_content
      = .ok "What is RAG?\n" := by
  have h := claim_C3_ref_only [] []
    ⟨.user, "What is RAG?",
        some [⟨"document_file", .fileData ⟨[⟨"7", ⟨"ref", .list ["doc9"]⟩, "r.pdf", 42, "pdf"⟩]⟩⟩]⟩
    [⟨"document_file", .fileData ⟨[⟨"7", ⟨"ref", .list ["doc9"]⟩, "r.pdf", 42, "pdf"⟩]⟩⟩]
    (ChatData.mk [⟨.user, "What is RAG?",
        some [⟨"document_file", .fileData ⟨[⟨"7", ⟨"ref", .list ["doc9"]⟩, "r.pdf", 42, "pdf"⟩]⟩⟩]⟩])
    rfl rfl rfl
    (by
      intro a ha
      simp only [List.mem_singleton] at ha
      subst ha
      exact ⟨rfl, ⟨[⟨"7", ⟨"ref", .list ["doc9"]⟩, "r.pdf", 42, "pdf"⟩]⟩, rfl, by decide⟩)
    (by simp)
  simpa using h

/-- Counterexample to C3 as stated: with a `document_file` annotation
holding a single `ref`-typed non-CSV file on the last (user) message, the
returned prompt is the content plus a trailing newline, not the content
unchanged. -/
theorem claim_C3_counterexample :
    (ChatData.mk [⟨.user, "Hey",
        some [⟨"document_file", .fileData ⟨[⟨"2", ⟨"ref", .list ["da"]⟩, "a.pdf", 5, "pdf"⟩]⟩⟩]⟩]).get_last_message_content
      ≠ .ok "Hey" := by decide

/-- C5 (amended): Scenario B input — last user message with one
`document_file` annotation holding one inline-text CSV file — yields the
original content, a newline, and the fenced CSV block with no trailing
newline after the closing fence. -/
theorem claim_C5_csv_block :
    (ChatData.mk [⟨.user, "Hi",
        some [⟨"document_file", .fileData ⟨[⟨"1", ⟨"text", .str "a,b\n1,2"⟩, "x.csv", 10, "csv"⟩]⟩⟩]⟩]).get_last_message_content
      = .ok "Hi\nUse data from following CSV raw content\n```csv\na,b\n1,2\n```" := by
  decide

/-- Counterexample to C5 as stated: the result does not carry the trailing
newline after the closing fence that the claim includes. -/
theorem claim_C5_counterexample :
    (ChatData.mk [⟨.user, "Hi",
        some [⟨"document_file", .fileData ⟨[⟨"1", ⟨"text", .str "a,b\n1,2"⟩, "x.csv", 10, "csv"⟩]⟩⟩]⟩]).get_last_message_content
      ≠ .ok "Hi\nUse data from following CSV raw content\n```csv\na,b\n1,2\n```\n" := by
  decide

/-- C6 (amended): the empty-conversation `ValueError` is raised if and
only if the message list is empty; a non-empty, well-formed message list
(every `document_file` annotation carries file data) returns normally; and
whenever `get_last_message_content` fails, the streaming handler never
reaches the engine. -/
theorem claim_C6_empty_error (cd : ChatData) :
    (cd.get_last_message_content = .error .valueErrorEmptyChat ↔ cd.messages = [])
      ∧ (cd.messages ≠ [] → cd.wellFormed → ∃ s, cd.get_last_message_content = .ok s)
      ∧ (∀ e, cd.get_last_message_content = .error e → chatInvokesEngine cd = false) := by
  refine ⟨⟨fun h => ?_, fun h => ?_⟩, fun h hwf => ?_, fun e he => ?_⟩
  · by_contra hne
    cases hl : cd.messages.getLast? with
    | none => exact hne (List.getLast?_eq_none_iff.mp hl)
    | some last =>
      unfold ChatData.get_last_message_content at h
      rw [hl] at h
      exact absurd (lastContentLoop_error _ _ _ h) (by decide)
  · unfold ChatData.get_last_message_content
    rw [List.getLast?_eq_none_iff.mpr h]
  · exact ⟨_, get_last_message_content_scan cd h hwf⟩
  · unfold chatInvokesEngine
    rw [he]

/-- Witness for C6: the empty request raises the empty-conversation error
and never reaches the engine; a concrete one-message request returns
normally. -/
theorem claim_C6_empty_error_witness :
    (ChatData.mk []).get_last_message_content = .error .valueErrorEmptyChat
      ∧ chatInvokesEngine (ChatData.mk []) = false
      ∧ ∃ s, (ChatData.mk [⟨.user, "Hi", none⟩]).get_last_message_content = .ok s := by
  refine ⟨(claim_C6_empty_error (ChatData.mk [])).1.mpr rfl,
    (claim_C6_empty_error (ChatData.mk [])).2.2 _
      ((claim_C6_empty_error (ChatData.mk [])).1.mpr rfl),
    (claim_C6_empty_error (ChatData.mk [⟨.user, "Hi", none⟩])).2.1
      (by simp) (by decide)⟩

/-- Counterexample to C6 as stated: a non-empty message list on which
`get_last_message_content` does not return normally — the `document_file`
annotation carries a plain string list, so the attribute access raises. -/
theorem claim_C6_counterexample :
    (ChatData.mk [⟨.user, "Hello", some [⟨"document_file", .refs ["d1"]⟩]⟩]).get_last_message_content
      = .error .attributeError := by decide

/-! ### Citation resolver claims -/

/-- C7: with no `file_name` in the metadata, the resolver returns the
`URL` field (or nothing), whatever the other fields and the configured
prefix and data directory are. -/
theorem claim_C7_no_file_name (url_pre : Option String) (data_dir : String)
    (metadata : String → Option String) (h : metadata "file_name" = none) :
    get_url_from_metadata url_pre data_dir metadata = metadata "URL" := by
  unfold get_url_from_metadata
  rw [h]
  simp [truthyOpt]

/-- Witness for C7: metadata holding only a `URL` field resolves to it,
with a file server configured. -/
theorem claim_C7_no_file_name_witness :
    get_url_from_metadata (some "http://fs") "/data"
        (fun k => if k = "URL" then some "https://example.com" else none)
      = some "https://example.com" := by
  have h := claim_C7_no_file_name (some "http://fs") "/data"
    (fun k => if k = "URL" then some "https://example.com" else none) rfl
  simpa using h

/-- C9: the resolver is a pure function of the metadata and the
configuration — two calls with identical metadata, URL prefix and data
directory return the identical result. -/
theorem claim_C9_deterministic (up1 up2 : Option String) (dd1 dd2 : String)
    (md1 md2 : String → Option String)
    (h1 : up1 = up2) (h2 : dd1 = dd2) (h3 : md1 = md2) :
    get_url_from_metadata up1 dd1 md1 = get_url_from_metadata up2 dd2 md2 := by
  subst h1; subst h2; subst h3; rfl

/-- Witness for C9 at Scenario C's input. -/
theorem claim_C9_deterministic_witness :
    get_url_from_metadata (some "http://host") "/data"
        (fun k => if k = "file_name" then some "f.pdf"
          else if k = "pipeline_id" then some "p1" else none)
      = get_url_from_metadata (some "http://host") "/data"
        (fun k => if k = "file_name" then some "f.pdf"
          else if k = "pipeline_id" then some "p1" else none) :=
  claim_C9_deterministic _ _ _ _ _ _ rfl rfl rfl

/-- C10: `is_last_message_from_user` subscripts the final message with no
emptiness guard: on an empty message list it raises `IndexError` rather
than returning a boolean, and on any non-empty list it returns a boolean. -/
theorem claim_C10_unguarded_last (cd : ChatData) :
    (cd.messages = [] → cd.is_last_message_from_user = .error .indexError)
      ∧ (cd.messages ≠ [] → ∃ b, cd.is_last_message_from_user = .ok b) := by
  constructor
  · intro h
    unfold ChatData.is_last_message_from_user
    rw [List.getLast?_eq_none_iff.mpr h]
  · intro h
    cases hl : cd.messages.getLast? with
    | none => exact absurd (List.getLast?_eq_none_iff.mp hl) h
    | some m =>
      refine ⟨decide (m.role = .user), ?_⟩
      unfold ChatData.is_last_message_from_user
      rw [hl]

/-- Witness for C10: the empty request raises `IndexError`; a one-message
request answers normally. -/
theorem claim_C10_unguarded_last_witness :
    (ChatData.mk []).is_last_message_from_user = .error .indexError
      ∧ ∃ b, (ChatData.mk [⟨.assistant, "ok", none⟩]).is_last_message_from_user = .ok b :=
  ⟨(claim_C10_unguarded_last (ChatData.mk [])).1 rfl,
    (claim_C10_unguarded_last (ChatData.mk [⟨.assistant, "ok", none⟩])).2 (by simp)⟩

/-! ### Stream multiplexer claims -/

/-- With a connection that never reports disconnection the loop forwards
every frame. -/
theorem cgLoop_no_disconnect (l : List String) :
    ∀ i, cgLoop (fun _ => false) l i = l := by
  induction l with
  | nil => intro i; rfl
  | cons f rest ih =>
    intro i
    simp only [cgLoop, if_neg (by simp : ¬(false = true))]
    rw [ih (i + 1)]

/-- C1 (amended): when the stream completes with no disconnect, the
multiplexer emits the leading blank `Text` frame, one `Text` frame per
token in production order, and the sources `Data` frame last; for tokens
`["Hel", "lo"]` and no source nodes the byte stream is Scenario A's,
except that CPython's `json.dumps` default separators put a space after
each `:` and `,` inside the sources object. -/
theorem claim_C1_ordering (tokens nodes : List String) :
    contentGenerator (innerFrames tokens nodes) (fun _ => false)
        = convert_text "" ::
            (tokens.map convert_text ++ [convert_data (sourcesJson nodes)])
      ∧ String.join (contentGenerator (innerFrames ["Hel", "lo"] []) (fun _ => false))
        = "0:\"\"\n0:\"Hel\"\n0:\"lo\"\n8:[\x7b\"type\": \"sources\", \"data\": \x7b\"nodes\": []\x7d\x7d]\n" := by
  constructor
  · cases tokens with
    | nil =>
      show convert_text "" :: cgLoop _ _ 0 = _
      rw [cgLoop_no_disconnect]
      rfl
    | cons t ts =>
      show convert_text "" :: cgLoop _ _ 0 = _
      rw [cgLoop_no_disconnect]
      rfl
  · decide

/-- Counterexample to C1 as stated: Scenario A's literal byte stream (no
spaces inside the sources object) is not what the code produces —
`json.dumps`'s default separators insert a space after each `:` and `,`. -/
theorem claim_C1_counterexample :
    String.join (contentGenerator (innerFrames ["Hel", "lo"] []) (fun _ => false))
      ≠ "0:\"\"\n0:\"Hel\"\n0:\"lo\"\n8:[\x7b\"type\":\"sources\",\"data\":\x7b\"nodes\":[]\x7d\x7d]\n" := by
  decide

/-- Once the disconnect check at index `n` answers true (all earlier
checks answering false), the loop keeps exactly the first `n + 1 - i`
frames. -/
theorem cgLoop_disconnect_take (disc : Nat → Bool) (n : Nat)
    (hn : disc n = true) (hbefore : ∀ j, j < n → disc j = false) :
    ∀ (l : List String) (i : Nat), i ≤ n →
      cgLoop disc l i = l.take (n + 1 - i) := by
  intro l
  induction l with
  | nil => intro i _; simp [cgLoop]
  | cons f rest ih =>
    intro i hi
    by_cases hin : i = n
    · subst hin
      simp only [cgLoop, if_pos hn]
      have h1 : i + 1 - i = 1 := by omega
      rw [h1]
      rfl
    · have hlt : i < n := by omega
      simp only [cgLoop, if_neg (by simp [hbefore i hlt] : ¬(disc i = true))]
      rw [ih (i + 1) (by omega)]
      have h2 : n + 1 - i = (n - i) + 1 := by omega
      have h3 : n + 1 - (i + 1) = n - i := by omega
      rw [h2, h3, List.take_succ_cons]

/-- C2 (amended): the multiplexer checks the connection after forwarding
each frame (the leading blank frame and the first inner frame are sent
before the first check); when the check at index `n` first reports the
disconnect, the emitted stream is the blank frame followed by the first
`n + 1` inner frames and nothing more — in particular no sources frame
when the token stream had further frames pending. -/
theorem claim_C2_disconnect_stops (items : List String) (disc : Nat → Bool)
    (n : Nat) (hn : disc n = true) (hbefore : ∀ j, j < n → disc j = false)
    (hne : items ≠ []) :
    contentGenerator items disc = convert_text "" :: items.take (n + 1) := by
  cases items with
  | nil => exact absurd rfl hne
  | cons f rest =>
    show convert_text "" :: cgLoop disc (f :: rest) 0 = _
    rw [cgLoop_disconnect_take disc n hn hbefore (f :: rest) 0 (by omega)]
    rfl

/-- Witness for C2 at Scenario D: five tokens, the client gone from the
second check on; only the blank frame and the first two token frames are
emitted, and the sources frame never is. -/
theorem claim_C2_disconnect_stops_witness :
    contentGenerator (innerFrames ["a", "b", "c", "d", "e"] [])
        (fun i => decide (1 ≤ i))
      = [convert_text "", convert_text "a", convert_text "b"] := by
  have h := claim_C2_disconnect_stops (innerFrames ["a", "b", "c", "d", "e"] [])
    (fun i => decide (1 ≤ i)) 1 (by decide)
    (fun j hj => by simp [Nat.lt_one_iff.mp hj]) (by decide)
  simpa using h

/-- Counterexample to C2 as stated: with the client disconnected from the
start, a check-before-each-frame multiplexer (the claim's wording,
`specCheckBeforeGenerator`) emits nothing, but the code still emits two
frames — the blank frame and the first token frame — because its check
runs only after each yield. -/
theorem claim_C2_counterexample :
    contentGenerator (innerFrames ["t1"] []) (fun _ => true)
        = [convert_text "", convert_text "t1"]
      ∧ specCheckBeforeGenerator (innerFrames ["t1"] []) (fun _ => true) = []
      ∧ contentGenerator (innerFrames ["t1"] []) (fun _ => true)
          ≠ specCheckBeforeGenerator (innerFrames ["t1"] []) (fun _ => true) := by
  refine ⟨by decide, by decide, by decide⟩

/-! ### Framing round trip (C8) -/

/-- Hex digits decode back to their value. -/
theorem parseHexDigit_hexDigit (n : Nat) (h : n < 16) :
    parseHexDigit (hexDigit n) = some n := by
  interval_cases n <;> decide

/-- Four-digit hex bodies decode back to their value. -/
theorem parseHex4_hex4 (n : Nat) (h : n < 65536) :
    parseHex4 (hexDigit (n / 4096 % 16)) (hexDigit (n / 256 % 16))
      (hexDigit (n / 16 % 16)) (hexDigit (n % 16)) = some n := by
  unfold parseHex4
  rw [parseHexDigit_hexDigit _ (by omega), parseHexDigit_hexDigit _ (by omega),
    parseHexDigit_hexDigit _ (by omega), parseHexDigit_hexDigit _ (by omega)]
  show some _ = some n
  exact congrArg some (by omega)

/-- The scalar-value range of a character. -/
theorem char_valid_range (c : Char) :
    c.toNat < 55296 ∨ (57343 < c.toNat ∧ c.toNat < 1114112) := by
  have h := c.valid
  unfold UInt32.isValidChar Nat.isValidChar at h
  exact h

/-- Decoding a non-surrogate `\u` escape prepends its scalar value. -/
theorem decodeU_escape (n : Nat) (h : n < 65536)
    (hs1 : ¬(55296 ≤ n ∧ n ≤ 56319)) (hs2 : ¬(56320 ≤ n ∧ n ≤ 57343))
    (t : List Char) :
    decodeU (hex4 n ++ t) = (decodeStringBody t).map (fun l => Char.ofNat n :: l) := by
  show decodeU (hexDigit (n / 4096 % 16) :: hexDigit (n / 256 % 16)
    :: hexDigit (n / 16 % 16) :: hexDigit (n % 16) :: t) = _
  rw [decodeU, parseHex4_hex4 n h]
  show (if 55296 ≤ n ∧ n ≤ 56319 then _ else _) = _
  rw [if_neg hs1, if_neg hs2]

/-- Decoding a surrogate-pair escape prepends the recombined scalar
value. -/
theorem decodeU_pair (n m : Nat) (hm : m < 65536)
    (hn : 55296 ≤ n ∧ n ≤ 56319) (hlo : 56320 ≤ m ∧ m ≤ 57343)
    (t : List Char) :
    decodeU (hex4 n ++ ('\\' :: 'u' :: (hex4 m ++ t)))
      = (decodeStringBody t).map
          (fun l => Char.ofNat (65536 + (n - 55296) * 1024 + (m - 56320)) :: l) := by
  show decodeU (hexDigit (n / 4096 % 16) :: hexDigit (n / 256 % 16)
    :: hexDigit (n / 16 % 16) :: hexDigit (n % 16)
    :: '\\' :: 'u' :: hexDigit (m / 4096 % 16) :: hexDigit (m / 256 % 16)
    :: hexDigit (m / 16 % 16) :: hexDigit (m % 16) :: t) = _
  rw [decodeU, parseHex4_hex4 n (by omega)]
  show (if 55296 ≤ n ∧ n ≤ 56319 then
      decodeLow n ('\\' :: 'u' :: hexDigit (m / 4096 % 16) :: hexDigit (m / 256 % 16)
        :: hexDigit (m / 16 % 16) :: hexDigit (m % 16) :: t)
    else _) = _
  rw [if_pos hn, decodeLow, if_pos ⟨rfl, rfl⟩, parseHex4_hex4 m hm]
  show (if 56320 ≤ m ∧ m ≤ 57343 then _ else _) = _
  rw [if_pos hlo]

/-- A backslash hands over to the escape decoder. -/
theorem decodeStringBody_backslash (l : List Char) :
    decodeStringBody ('\\' :: l) = decodeEsc l := by
  rw [decodeStringBody]
  rw [if_neg (by decide), if_pos rfl]

/-- The escape letter `u` hands over to the hex-escape decoder. -/
theorem decodeEsc_u (l : List Char) : decodeEsc ('u' :: l) = decodeU l := by
  rw [decodeEsc]
  rw [if_neg (by decide), if_neg (by decide), if_neg (by decide),
    if_neg (by decide), if_neg (by decide), if_neg (by decide),
    if_neg (by decide), if_neg (by decide), if_pos rfl]

/-- One encoded character decodes back to itself in front of any tail. -/
theorem decodeStringBody_encodeChar (c : Char) (t : List Char) :
    decodeStringBody (encodeChar c ++ t)
      = (decodeStringBody t).map (fun l => c :: l) := by
  by_cases h1 : c = '"'
  · subst h1; rfl
  by_cases h2 : c = '\\'
  · subst h2; rfl
  by_cases h3 : c = '\x08'
  · subst h3; rfl
  by_cases h4 : c = '\x0c'
  · subst h4; rfl
  by_cases h5 : c = '\n'
  · subst h5; rfl
  by_cases h6 : c = '\x0d'
  · subst h6; rfl
  by_cases h7 : c = '\t'
  · subst h7; rfl
  by_cases h8 : 32 ≤ c.toNat ∧ c.toNat ≤ 126
  · have he : encodeChar c = [c] := by
      unfold encodeChar
      rw [if_neg h1, if_neg h2, if_neg h3, if_neg h4, if_neg h5, if_neg h6,
        if_neg h7, if_pos h8]
    rw [he]
    show decodeStringBody (c :: t) = _
    rw [decodeStringBody]
    rw [if_neg h1, if_neg h2, if_pos h8.1]
  · have hval := char_valid_range c
    by_cases h9 : c.toNat < 65536
    · have he : encodeChar c = '\\' :: 'u' :: hex4 c.toNat := by
        unfold encodeChar
        rw [if_neg h1, if_neg h2, if_neg h3, if_neg h4, if_neg h5, if_neg h6,
          if_neg h7, if_neg h8, if_pos h9]
      rw [he]
      simp only [List.cons_append]
      rw [decodeStringBody_backslash, decodeEsc_u,
        decodeU_escape c.toNat h9 (by omega) (by omega) t, Char.ofNat_toNat]
    · have he : encodeChar c = '\\' :: 'u' :: hex4 (55296 + (c.toNat - 65536) / 1024) ++
          ('\\' :: 'u' :: hex4 (56320 + (c.toNat - 65536) % 1024)) := by
        unfold encodeChar
        rw [if_neg h1, if_neg h2, if_neg h3, if_neg h4, if_neg h5, if_neg h6,
          if_neg h7, if_neg h8, if_neg h9]
      rw [he]
      simp only [List.cons_append, List.append_assoc]
      rw [decodeStringBody_backslash, decodeEsc_u]
      have hb : c.toNat < 1114112 := by
        rcases hval with h | ⟨_, h⟩
        · omega
        · exact h
      rw [decodeU_pair _ _ (by omega) (by omega) (by omega) t]
      have harith : 65536 + (55296 + (c.toNat - 65536) / 1024 - 55296) * 1024 +
          (56320 + (c.toNat - 65536) % 1024 - 56320) = c.toNat := by omega
      rw [harith, Char.ofNat_toNat]

/-- The whole encoded character list, followed by the closing quote,
decodes back to the original list. -/
theorem decodeStringBody_flatMap (l : List Char) :
    decodeStringBody (l.flatMap encodeChar ++ ['"']) = some l := by
  induction l with
  | nil => rfl
  | cons c rest ih =>
    rw [List.flatMap_cons, List.append_assoc, decodeStringBody_encodeChar, ih]
    rfl

/-- C8: the `Text` frame is the `"0:"` prefix, the JSON-escaped token and
a newline, and JSON-decoding the escaped payload returns the original
token exactly, for every token (quotes, backslashes, newlines, control
and non-ASCII characters included). -/
theorem claim_C8_roundtrip (token : String) :
    convert_text token = "0:" ++ jsonDumpsString token ++ "\n"
      ∧ jsonLoadsString (jsonDumpsString token) = some token := by
  refine ⟨rfl, ?_⟩
  unfold jsonLoadsString jsonDumpsString
  have hdata : ("\"" ++ String.mk (token.data.flatMap encodeChar) ++ "\"").data
      = '"' :: (token.data.flatMap encodeChar ++ ['"']) := by
    simp [String.data_append]
  rw [hdata]
  show (decodeStringBody (token.data.flatMap encodeChar ++ ['"'])).map String.mk = _
  rw [decodeStringBody_flatMap]
  show some (String.mk token.data) = some token
  rfl

end SimpleRag
